import Mathlib

/-!
Verification development for the cudatel-ws-client repository.

The JavaScript sources embedded here are:
  - lib/connection.js (the unnamed source file): the `Connection` module
    holding the channel registry, timers, message codec and record formatter;
  - lib/client.js: the `Client` module holding the per-channel live record
    cache and the reconnect supervisor.

JavaScript objects used as string-keyed dictionaries are embedded as
association lists (`List (String × α)`) with last-write-wins update.
Fallible JavaScript code (property access on `undefined`, which throws a
TypeError) is embedded with `Except Unit`.
-/

namespace CudatelWS

/-- Wire values carried in message payloads: JSON numbers (restricted to
integers, which is all the repository manipulates) and strings. -/
inductive Value where
  | vInt : Int → Value
  | vStr : String → Value
deriving DecidableEq, Repr

/-- Property write on a JavaScript object embedded as an association list:
overwrites the first matching key in place, appends otherwise. -/
def setA {α : Type} (l : List (String × α)) (k : String) (v : α) :
    List (String × α) :=
  match l with
  | [] => [(k, v)]
  | (k₁, v₁) :: t => if k₁ = k then (k, v) :: t else (k₁, v₁) :: setA t k v

/-- Property read on a JavaScript object embedded as an association list;
`none` plays the role of `undefined`. -/
def getA {α : Type} (l : List (String × α)) (k : String) : Option α :=
  match l with
  | [] => none
  | (k₁, v₁) :: t => if k₁ = k then some v₁ else getA t k

theorem getA_setA_self {α : Type} (l : List (String × α)) (k : String) (v : α) :
    getA (setA l k v) k = some v := by
  induction l with
  | nil => simp [setA, getA]
  | cons p t ih =>
    obtain ⟨k₁, v₁⟩ := p
    by_cases h : k₁ = k
    · simp [setA, getA, h]
    · simp [setA, getA, h, ih]

theorem getA_setA_ne {α : Type} (l : List (String × α)) (k k' : String) (v : α)
    (h : k' ≠ k) : getA (setA l k v) k' = getA l k' :=
  by
  induction l with
  | nil => simp [setA, getA, h.symm]
  | cons p t ih =>
    obtain ⟨k₁, v₁⟩ := p
    by_cases hk : k₁ = k
    · subst hk
      simp [setA, getA, h.symm, Ne.symm h]
    · simp only [setA, if_neg hk]
      by_cases hk' : k₁ = k'
      · simp [getA, hk']
      · simp [getA, hk', ih]

/-- JavaScript `x || default` on an optional string field (the empty string
is falsy). -/
def jsOr (o : Option String) (d : String) : String :=
  match o with
  | some s => if s = "" then d else s
  | none => d

/-- JavaScript truthiness filter for an optional string: `undefined` and the
empty string are both falsy. -/
def jsStrTruthy (o : Option String) : Option String :=
  match o with
  | some s => if s = "" then none else some s
  | none => none

/-- One character of the toLowerCase conversion, for the ASCII alphabet the
repository deals in. -/
def lowerChar (c : Char) : Char :=
  if 'A' ≤ c ∧ c ≤ 'Z' then Char.ofNat (c.toNat + 32) else c

/-- JavaScript `toLowerCase()` on the ASCII strings of this protocol. -/
def jsToLower (s : String) : String :=
  ⟨s.data.map lowerChar⟩

/-- JavaScript `parseInt` restricted to the shapes the repository feeds it:
an optional leading minus sign followed by decimal digits; `none` stands for
`NaN` (in particular `parseInt(undefined)` is `NaN`). -/
def jsParseIntStr (s : String) : Option Int :=
  let core : List Char → Option Int := fun cs =>
    let digits := cs.takeWhile Char.isDigit
    if digits = [] then none
    else some (Int.ofNat (digits.foldl (fun n c => n * 10 + (c.toNat - 48)) 0))
  match s.data with
  | '-' :: rest => (core rest).map (fun n => -n)
  | cs => core cs

/-- JavaScript `parseInt` applied to a possibly missing `Value`. -/
def jsParseInt (o : Option Value) : Option Int :=
  match o with
  | none => none
  | some (.vInt n) => some n
  | some (.vStr s) => jsParseIntStr s

/-!  Record Formatter (Connection.format, connection.js lines 288-317). -/

/-- An entry of the `record.call` object: either a plain value or one of the
`aleg`/`bleg` sub-objects. -/
inductive CallVal where
  | val : Value → CallVal
  | leg : List (String × Value) → CallVal
deriving DecidableEq, Repr

/-- The formatted record built by `Connection.format` (the `message` and
`cols` fields of the source record, which merely alias the inputs, are not
repeated here). -/
structure FRecord where
  data : List (String × Value)
  call : List (String × CallVal)
  action : String
deriving DecidableEq, Repr

/-- The inner `message.data.data` object of a wire message: its `action`
label and its positional payload `message.data.data.data`. -/
structure MsgInner where
  action : Option String
  rows : List Value
deriving DecidableEq, Repr

/-- Label lookup `record.cols[ position ] || "FAILED"`: a missing or empty
(falsy) label at a position yields the sentinel label. -/
def labelAt (cols : List String) (i : Nat) : String :=
  match cols[i]? with
  | some l => if l = "" then "FAILED" else l
  | none => "FAILED"

/-- Write into an `aleg`/`bleg` sub-object of `record.call`.  The source
evaluates `record.call[ lab ][ col ] = value` where `lab` is always one of
the two keys installed by the record literal, so the entry is present and is
a sub-object; other shapes are left unchanged here. -/
def setLeg (call : List (String × CallVal)) (lab col : String) (v : Value) :
    List (String × CallVal) :=
  match getA call lab with
  | some (.leg m) => setA call lab (.leg (setA m col v))
  | _ => call

/-- One iteration of the formatting loop (connection.js lines 301-312) at
position `i` with value `v`. -/
def formatStep (cols : List String) (rec : FRecord) (i : Nat) (v : Value) :
    FRecord :=
  let label := labelAt cols i
  let leg := label.take 2
  let lab := label.take 1 ++ "leg"
  let col := label.drop 2
  let rec₁ :=
    if leg = "a_" ∨ leg = "b_" then { rec with call := setLeg rec.call lab col v }
    else { rec with call := setA rec.call label (.val v) }
  { rec₁ with data := setA rec₁.data label v }

/-- The formatting loop over the positional payload, starting at position
`i`. -/
def formatLoop (cols : List String) (rec : FRecord) (i : Nat) :
    List Value → FRecord
  | [] => rec
  | v :: vs => formatLoop cols (formatStep cols rec i v) (i + 1) vs

/-- The record literal at the top of `Connection.format`: empty `data`, a
`call` object holding fresh `aleg`/`bleg` sub-objects, and the action label
defaulting to bootstrap. -/
def initRecord (action : Option String) : FRecord :=
  { data := []
    call := [("aleg", .leg []), ("bleg", .leg [])]
    action := jsOr action "bootstrap" }

/-- The `data` object of the formatted record just before the derived id is
assigned. -/
def formatData (cols : List String) (inn : MsgInner) : List (String × Value) :=
  (formatLoop cols (initRecord inn.action) 0 inn.rows).data

/-- The derived id: `( parseInt( record.data.row_id ) + 1 ).toString()`.
When `row_id` is absent or unparsable, `parseInt` gives `NaN` and the
assigned string is `"NaN"`. -/
def idValue (rid : Option Value) : Value :=
  match jsParseInt rid with
  | some n => .vStr (toString (n + 1))
  | none => .vStr "NaN"

/-- `Connection.format`.  Returns `.ok none` (the source returns `false`)
when the channel has no bond or an empty bond — this check runs before any
payload access, so no exception can be raised in that case.  When the bond
is usable but the message has no inner `data.data` object, the source throws
a TypeError reading `data.action`, embedded as `.error ()`. -/
def format (bond : Option (List String)) (inner : Option MsgInner) :
    Except Unit (Option FRecord) :=
  match bond with
  | none => .ok none
  | some cols =>
    if cols.length = 0 then .ok none
    else
      match inner with
      | none => .error ()
      | some inn =>
        let rec₁ := formatLoop cols (initRecord inn.action) 0 inn.rows
        .ok (some { rec₁ with
          data := setA rec₁.data "id" (idValue (getA rec₁.data "row_id")) })

/-!  Channel Registry and timers (connection.js, the `channel` object). -/

/-- One channel binding, as created by `channel.make` (connection.js lines
162-170): interval handles `beat` and `test` (0 until an interval is
stored), the heartbeat counter `tick`, the user list, and the `done`/`sent`
flags. -/
structure Binding where
  beat : Nat
  tick : Nat
  test : Nat
  user : List String
  done : Bool
  sent : Bool
deriving DecidableEq, Repr

/-- The wall-clock interval world: `setInterval` hands out fresh positive
ids and registers them; `clearInterval` deregisters one id (and is a no-op
on 0 or an unknown id, like the JavaScript original). -/
structure Timers where
  nextId : Nat
  active : List Nat
deriving DecidableEq, Repr

def Timers.fresh : Timers := ⟨1, []⟩

def setInterval (t : Timers) : Nat × Timers :=
  (t.nextId, ⟨t.nextId + 1, t.nextId :: t.active⟩)

def clearInterval (t : Timers) (id : Nat) : Timers :=
  ⟨t.nextId, t.active.filter (fun i => i ≠ id)⟩

/-- The mutable state of the `channel` object of one `Connection`: the
outbound sequence counter `poll`, the configured channel sets, the bindings
object `data`, and the session id used by outgoing messages. -/
structure Registry where
  poll : Nat
  sessid : Option String
  sets : List (String × List String)
  data : List (String × Binding)
deriving DecidableEq, Repr

/-- The registry of a freshly constructed `Connection` after its bootstrap:
`poll` starts at 0, `data` holds no channel bindings yet, and the channel
sets come from configuration. -/
def freshRegistry (sets : List (String × List String)) : Registry :=
  ⟨0, none, sets, []⟩

/-- `channel.type`: the first set name whose list holds the channel;
the source emits an error notification and returns `undefined` when the
channel is in no set. -/
def chanType (r : Registry) (c : String) : Option String :=
  (r.sets.find? (fun p => p.2.contains c)).map (fun p => p.1)

/-- `channel.make`: installs a fresh binding; `sent` starts `true` and is
flipped to `false` exactly for channels of the `boot` set. -/
def makeChannel (r : Registry) (c : String) : Registry :=
  let b : Binding :=
    { beat := 0, tick := 0, test := 0, user := [], done := false
      sent := if chanType r c = some "boot" then false else true }
  { r with data := setA r.data c b }

/-- All channels of all sets, in iteration order (`channel.each`). -/
def setsChannels (r : Registry) : List String :=
  r.sets.foldr (fun p acc => p.2 ++ acc) []

/-- The notification emitted by `channel.lock`. -/
inductive LockEmit where
  | booting
  | loaded
deriving DecidableEq, Repr

/-- `channel.lock` (connection.js lines 130-138): a boot-set channel whose
boot message is unsent only gets a booting notification; otherwise the
binding is marked done.  When the channel has no binding, the guard is
falsy and the assignment `data[channel].done = true` throws. -/
def lock (r : Registry) (c : String) : Except Unit (Registry × LockEmit) :=
  match getA r.data c with
  | none => .error ()
  | some b =>
    if chanType r c = some "boot" ∧ b.sent = false then .ok (r, .booting)
    else .ok ({ r with data := setA r.data c { b with done := true } }, .loaded)

/-- `channel.flow` (connection.js lines 188-191): stores two fresh interval
ids into the binding.  No interval is cleared first.  Reading the binding of
an unknown channel throws. -/
def flow (r : Registry) (t : Timers) (c : String) :
    Except Unit (Registry × Timers) :=
  match getA r.data c with
  | none => .error ()
  | some b =>
    let s₁ := setInterval t
    let s₂ := setInterval s₁.2
    .ok ({ r with data := setA r.data c { b with beat := s₁.1, test := s₂.1 } }, s₂.2)

/-- The notification emitted by `channel.dump`. -/
inductive DumpEmit where
  | errorUnknown
  | cleared
deriving DecidableEq, Repr

/-- `channel.dump` (connection.js lines 198-203): an unknown channel only
produces an error notification; otherwise `clearInterval` is called on the
`beat` handle — and only on it — and the binding is re-made. -/
def dump (r : Registry) (t : Timers) (c : String) :
    Registry × Timers × DumpEmit :=
  match getA r.data c with
  | none => (r, t, .errorUnknown)
  | some b => (makeChannel r c, clearInterval t b.beat, .cleared)

/-- `channel.done` with a channel argument: reads the `done` flag of the
binding, throwing when the binding is absent. -/
def doneChan (r : Registry) (c : String) : Except Unit Bool :=
  match getA r.data c with
  | none => .error ()
  | some b => .ok b.done

/-- `channel.done` with no argument (connection.js lines 111-123): iterates
every set channel reading `data[channel].done` — the callback throws when a
binding is absent, and its early `return false` only leaves the callback —
then the outer function returns `true` unconditionally. -/
def doneAll (r : Registry) : Except Unit Bool :=
  if (setsChannels r).all (fun c => (getA r.data c).isSome) then .ok true
  else .error ()

/-!  Message codec, outbound side (Connection.write / writers / advanced). -/

/-- The outgoing message formats accepted by `Connection.write`. -/
inductive WFormat where
  | stat
  | auth
  | join
  | boot
  | beat
deriving DecidableEq, Repr

/-- The `formats` table of `Connection.write`. -/
def fmtCmd : WFormat → String
  | .stat => "CHECK"
  | .auth => "CONNECT"
  | .join => "JOIN"
  | .boot => "BROADCAST"
  | .beat => "BROADCAST"

/-- The advanced-query object built by `Connection.advanced`: fixed paging
and filter defaults, plus `hb_id` for heartbeat commands only. -/
structure AdvObj where
  page_size : Nat
  distinct_on : String
  allow_null_distinct : String
  order_by : String
  ident : String
  hb_id : Option Nat
deriving DecidableEq, Repr

def baseAdvObj : AdvObj :=
  { page_size := 25, distinct_on := "", allow_null_distinct := ""
    order_by := "", ident := "default", hb_id := none }

/-- The `params` object of an outgoing message, one shape per writer. -/
inductive Params where
  | empty
  | channels (cs : List String)
  | session (s : String)
  | liveArray (command : String) (context : String) (obj : AdvObj)
deriving DecidableEq, Repr

/-- The heartbeat id carried by a params object, when any. -/
def Params.hbId : Params → Option Nat
  | .liveArray _ _ obj => obj.hb_id
  | _ => none

/-- The untyped `context` argument of `Connection.send`/`write`: a channel
name, a channel list, a session token, or nothing. -/
inductive WContext where
  | chan (c : String)
  | chans (cs : List String)
  | sess (s : String)
  | nil
deriving DecidableEq, Repr

/-- `channel.tick`: post-increments the per-channel heartbeat counter;
throws on a channel with no binding. -/
def tick (r : Registry) (c : String) : Except Unit (Nat × Registry) :=
  match getA r.data c with
  | none => .error ()
  | some b => .ok (b.tick, { r with data := setA r.data c { b with tick := b.tick + 1 } })

/-- `Connection.advanced`: the `liveArray` params; `hb_id` is filled from
`channel.tick` exactly for the heartbeat command. -/
def advanced (r : Registry) (command : String) (context : String) :
    Except Unit (Params × Registry) :=
  if command = "heartbeat" then
    match tick r context with
    | .error e => .error e
    | .ok (n, r₁) =>
      .ok (.liveArray command context { baseAdvObj with hb_id := some n }, r₁)
  else .ok (.liveArray command context baseAdvObj, r)

/-- The `writers` table: params builder per format. -/
def writers (r : Registry) : WFormat → WContext → Except Unit (Params × Registry)
  | .stat, _ => .ok (.empty, r)
  | .join, ctx =>
    .ok (.channels (match ctx with | .chans cs => cs | _ => []), r)
  | .auth, ctx =>
    .ok (.session (match ctx with | .sess s => s | _ => ""), r)
  | .boot, ctx =>
    match ctx with
    | .chan c => advanced r "bootstrap" c
    | _ => .error ()
  | .beat, ctx =>
    match ctx with
    | .chan c => advanced r "heartbeat" c
    | _ => .error ()

/-- An assembled outgoing message envelope. -/
structure Msg where
  cmd : String
  chl : Nat
  sessid : Option String
  params : Params
deriving DecidableEq, Repr

/-- `Connection.write` (connection.js lines 645-658): the envelope takes
`chl` from `channel.next()` (post-increment of `poll`), the stored session
id (deleted for the auth format), and the params from the matching writer.
The object literal evaluates `chl` before `params`, so `poll` is already
advanced if a writer throws. -/
def write (r : Registry) (f : WFormat) (ctx : WContext) :
    Except Unit (Msg × Registry) :=
  let chl := r.poll
  let r₁ := { r with poll := r.poll + 1 }
  match writers r₁ f ctx with
  | .error e => .error e
  | .ok (p, r₂) =>
    .ok ({ cmd := fmtCmd f, chl := chl
           sessid := if f = .auth then none else r.sessid, params := p }, r₂)

/-!  Message codec, inbound side (channel.find and the reading handler). -/

/-- The `message.data` object of an inbound message: a direct `channel`
field, the nested `pipe.properties.name` of snapshot-stream messages
(`none` models a missing `pipe` object), and the inner `data` object. -/
structure MsgData where
  channel : Option String
  pipeName : Option String
  inner : Option MsgInner
deriving DecidableEq, Repr

/-- One inbound message: its raw label and its data object. -/
structure InMsg where
  raw : String
  data : MsgData
deriving DecidableEq, Repr

/-- `channel.find` (connection.js lines 177-182): the lower-cased direct
channel field when truthy, else the lower-cased pipe name when the pipe
object exists, else `false` (`none` here). -/
def findChannel (m : InMsg) : Option String :=
  match jsStrTruthy m.data.channel with
  | some c => some (jsToLower c)
  | none =>
    match m.data.pipeName with
    | some p => some (jsToLower p)
    | none => none

/-- The keys of the `commands` dispatch table. -/
def commandNames : List String :=
  ["join_channel", "login", "join", "left", "ident", "channel",
   "meteor_alive", "init", "clear", "bootstrap_data", "err", "default"]

/-- Where the reading handler sends one inbound message. -/
inductive RouteResult where
  | toCommand (c : Option String) (m : InMsg)
  | toCache (c : String) (rec : Option FRecord)
deriving DecidableEq, Repr

/-- The per-message body of the reading handler (connection.js lines
394-402): a falsy channel, a reserved raw label, or an un-done channel goes
to the command dispatcher; otherwise the message is formatted and emitted to
the cache as a pulled event.  `channel.done` on a resolved channel with no
binding throws, as does `Connection.format` on a bonded channel when the
message lacks an inner data object. -/
def route (r : Registry) (bonds : List (String × List String)) (m : InMsg) :
    Except Unit RouteResult :=
  let c := findChannel m
  match jsStrTruthy c with
  | none => .ok (.toCommand c m)
  | some ch =>
    if commandNames.contains (jsToLower m.raw) then .ok (.toCommand c m)
    else
      match getA r.data ch with
      | none => .error ()
      | some b =>
        if b.done = false then .ok (.toCommand c m)
        else
          match format (getA bonds ch) m.data.inner with
          | .error e => .error e
          | .ok rec => .ok (.toCache ch rec)

/-- The action resolution of the command dispatcher (connection.js lines
427-435): `data` is the inner data object when present, else the outer data
object (which carries no action field in this model); a falsy action falls
back to the raw label; the `meteor_alive` channel overrides the action. -/
def actOf (c : Option String) (m : InMsg) : String :=
  let action :=
    match m.data.inner with
    | some inn => jsOr inn.action m.raw
    | none => m.raw
  jsToLower (if c = some "meteor_alive" then "meteor_alive" else action)

/-- A JavaScript property key for a possibly-false channel variable: a
false channel is coerced to the string key "false". -/
def chKey (c : Option String) : String :=
  match c with
  | some s => s
  | none => "false"

/-!  Live Cache / Synchronizer (client.js). -/

/-- The per-channel live cache entry, `live[channel] = data plus ready`. -/
structure Cache where
  data : List (List (String × Value))
  ready : Bool
deriving DecidableEq, Repr

/-- The mutable state of one `Client`: a generation counter standing for
the identity of the current `Connection` instance (`open` replaces it with
a brand-new one), the boot channel set the constructed connection reads
from configuration, the watched channel list, and the live cache. -/
structure ClientState where
  gen : Nat
  cfgBoot : List String
  watch : List String
  live : List (String × Cache)
deriving DecidableEq, Repr

/-- `Client.wipe` (client.js lines 135-146): rebinds the watchers (pure
event wiring), points `watch` at the boot set of the new connection, and
resets the cache entry of every watched channel to empty and not ready. -/
def wipe (s : ClientState) : ClientState :=
  { s with
    watch := s.cfgBoot
    live := s.cfgBoot.foldl (fun l c => setA l c ⟨[], false⟩) s.live }

/-- `Client.open` (client.js lines 124-130): constructs a brand-new
`Connection` (modelled by bumping the generation counter) and wipes the
client state. -/
def openConn (s : ClientState) : ClientState :=
  wipe { s with gen := s.gen + 1 }

/-- `Client.shut`: logs and re-opens. -/
def shut (s : ClientState) : ClientState :=
  openConn s

/-- `Client.done`: `live[channel].ready ? true : false`, throwing when the
channel has no cache entry. -/
def clientDone (s : ClientState) (c : String) : Except Unit Bool :=
  match getA s.live c with
  | none => .error ()
  | some cache => .ok cache.ready

/-- A record field used as a JavaScript array index: a non-negative integer
value indexes the array, anything else falls outside the element range. -/
def valueIndex (o : Option Value) : Option Nat :=
  match o with
  | some (.vInt n) => if n < 0 then none else some n.toNat
  | _ => none

/-- JavaScript array element assignment `l[i] = a` for an index within the
current bounds; an out-of-bounds index leaves the element range unchanged
in this model (the source would create a sparse slot). -/
def setNth {α : Type} (l : List α) (i : Nat) (a : α) : List α :=
  match l, i with
  | [], _ => []
  | _ :: t, 0 => a :: t
  | h :: t, n + 1 => h :: setNth t n a

/-- `Client.read` (client.js lines 174-194): dispatch on the action of the
formatted record.  The pulled watcher hands `read` the value returned by
`Connection.format`, which is `false` when the message was not formattable;
reading `.action` of `false` gives `undefined` and falls to the default
branch, which only logs.  The `bootstrap_data` action tears the connection
down and re-opens.  Reading `live[channel]` of an unwatched channel
throws. -/
def clientRead (s : ClientState) (c : String) (m : Option FRecord) :
    Except Unit ClientState :=
  match getA s.live c with
  | none => .error ()
  | some live =>
    match m with
    | none => .ok s
    | some r =>
      if r.action = "add" ∨ r.action = "modify" then
        let newData :=
          match valueIndex (getA r.data "row_id") with
          | some i => setNth live.data i r.data
          | none => live.data
        .ok { s with live := setA s.live c { live with data := newData } }
      else if r.action = "del" then
        let newData :=
          live.data.eraseIdx ((valueIndex (getA r.data "row_id")).getD 0)
        .ok { s with live := setA s.live c { live with data := newData } }
      else if r.action = "bootstrap_data" then .ok (shut s)
      else .ok s

/-- The pulled watcher (client.js line 109): applies `read` only when the
channel is marked ready; `Client.done` throws on unwatched channels. -/
def clientPulled (s : ClientState) (c : String) (m : Option FRecord) :
    Except Unit ClientState :=
  match clientDone s c with
  | .error e => .error e
  | .ok true => clientRead s c m
  | .ok false => .ok s

/-- The combined state the clear path touches: the per-channel bonds of the
connection and the live cache of the client. -/
structure BondsLive where
  bonds : List (String × List String)
  live : List (String × Cache)
deriving DecidableEq, Repr

/-- The clear branch of the command dispatcher: `commands.clear` re-emits
the message as a clear event and its handler (connection.js line 449) sets
`bond[channel] = []`.  No `Client` watcher listens for that event, so the
live cache is untouched.  The value is `none` when the resolved action is
not `clear` (the message belongs to another branch of the table). -/
def commandClear (st : BondsLive) (c : Option String) (m : InMsg) :
    Option BondsLive :=
  if actOf c m = "clear" then
    some { st with bonds := setA st.bonds (chKey c) [] }
  else none

/-- Lookup of an aleg/bleg sub-object entry of a call object. -/
def legGet (call : List (String × CallVal)) (lab col : String) : Option Value :=
  match getA call lab with
  | some (.leg m) => getA m col
  | _ => none

theorem getA_foldl_setA_notmem {α : Type} (cs : List String)
    (l : List (String × α)) (v : α) (c : String) (h : c ∉ cs) :
    getA (cs.foldl (fun acc x => setA acc x v) l) c = getA l c := by
  induction cs generalizing l with
  | nil => rfl
  | cons x rest ih =>
    have hx : c ≠ x := fun hc => h (hc ▸ List.mem_cons_self x rest)
    have hrest : c ∉ rest := fun hc => h (List.mem_cons_of_mem x hc)
    simp only [List.foldl_cons]
    rw [ih _ hrest, getA_setA_ne _ _ _ _ hx]

theorem getA_foldl_setA_mem {α : Type} (cs : List String)
    (l : List (String × α)) (v : α) (c : String) (h : c ∈ cs) :
    getA (cs.foldl (fun acc x => setA acc x v) l) c = some v := by
  induction cs generalizing l with
  | nil => cases h
  | cons x rest ih =>
    simp only [List.foldl_cons]
    by_cases hr : c ∈ rest
    · exact ih _ hr
    · have hx : c = x := by
        rcases List.mem_cons.mp h with h₁ | h₂
        · exact h₁
        · exact absurd h₂ hr
      rw [getA_foldl_setA_notmem _ _ _ _ hr, hx, getA_setA_self]

/-- Claim C1 counterexample.  In a state where channel calls has the stored
schema with one column label and a ready live cache holding one record,
dispatching a message whose action resolves to clear leaves the live entry
unchanged — still holding its record, not reset to the empty collection —
while the stored schema is reset to the empty list.  The claim asserts the
exact opposite on both counts. -/
theorem c1_counterexample :
    ((commandClear
        ⟨[("calls", ["a_id"])],
         [("calls", ⟨[[("status", Value.vStr "up")]], true⟩)]⟩
        (some "calls")
        ⟨"live_status", ⟨some "calls", none, some ⟨some "clear", []⟩⟩⟩).map
      (fun st => (getA st.bonds "calls", getA st.live "calls"))) =
      some (some [], some ⟨[[("status", Value.vStr "up")]], true⟩) := by
  rfl

/-- Claim C1, amended.  Handling a clear action resets the stored schema
(bond) of the addressed channel to the empty list, leaves the bonds of all
other channels alone, and leaves the live record cache of the client
entirely unchanged. -/
theorem c1_amended (st : BondsLive) (c : String) (m : InMsg)
    (h : actOf (some c) m = "clear") :
    commandClear st (some c) m =
      some { bonds := setA st.bonds c [], live := st.live } ∧
    getA (setA st.bonds c []) c = some [] ∧
    ∀ c', c' ≠ c → getA (setA st.bonds c []) c' = getA st.bonds c' := by
  refine ⟨?_, getA_setA_self _ _ _, fun c' hc => getA_setA_ne _ _ _ _ hc⟩
  simp [commandClear, h, chKey]

/-- Witness for the amended claim C1 at a concrete input. -/
theorem c1_witness :
    commandClear ⟨[("calls", ["a_id"])], []⟩ (some "calls")
        ⟨"x", ⟨some "calls", none, some ⟨some "clear", []⟩⟩⟩ =
      some { bonds := setA [("calls", ["a_id"])] "calls" [],
             live := ([] : List (String × Cache)) } ∧
    getA (setA [("calls", ["a_id"])] "calls" []) "calls" = some [] :=
  ⟨(c1_amended ⟨[("calls", ["a_id"])], []⟩ "calls"
      ⟨"x", ⟨some "calls", none, some ⟨some "clear", []⟩⟩⟩ (by decide)).1,
   (c1_amended ⟨[("calls", ["a_id"])], []⟩ "calls"
      ⟨"x", ⟨some "calls", none, some ⟨some "clear", []⟩⟩⟩ (by decide)).2.1⟩

/-- Claim C2 counterexample.  Make the channel calls on a fresh registry,
start its timers with flow (the binding then stores beat id 1 and test id
2), then dump it: only interval 1 is cleared and the health-check interval
2 stays active, although the claim demands that dumping clears both
timers — and the re-made binding is not done while its old test interval
keeps running, refuting the if-and-only-if as well. -/
theorem c2_counterexample :
    ((flow (makeChannel (freshRegistry [("boot", ["calls"])]) "calls")
        Timers.fresh "calls").map
      (fun p =>
        ((match getA p.1.data "calls" with
          | some b => b.test
          | none => 0),
         (dump p.1 p.2 "calls").2.1.active))) = .ok (2, [2]) := by
  rfl

/-- Claim C2, amended.  First, flow installs two fresh intervals into the
binding without clearing anything: every previously active interval id
stays active.  Second, dump clears exactly the beat interval and re-makes
the binding; the test interval survives whenever it is distinct from the
beat interval.  Third, timers existing is not equivalent to the channel
being done: locking a channel outside the boot set marks it done while
touching no timer at all (lock takes no timer state). -/
theorem c2_amended :
    (∀ (r : Registry) (t : Timers) (c : String) (b : Binding),
        getA r.data c = some b →
        flow r t c = .ok
          ({ r with data := setA r.data c { b with beat := t.nextId, test := t.nextId + 1 } },
           ⟨t.nextId + 2, (t.nextId + 1) :: t.nextId :: t.active⟩)) ∧
    (∀ (r : Registry) (t : Timers) (c : String) (b : Binding),
        getA r.data c = some b →
        dump r t c =
          (makeChannel r c, ⟨t.nextId, t.active.filter (fun i => i ≠ b.beat)⟩,
           .cleared) ∧
        (b.test ∈ t.active → b.test ≠ b.beat →
          b.test ∈ (dump r t c).2.1.active)) ∧
    (∀ (r : Registry) (c : String) (b : Binding),
        getA r.data c = some b → chanType r c ≠ some "boot" →
        lock r c = .ok
          ({ r with data := setA r.data c { b with done := true } }, .loaded)) := by
  refine ⟨?_, ?_, ?_⟩
  · intro r t c b h
    simp [flow, h, setInterval]
  · intro r t c b h
    constructor
    · simp [dump, h, clearInterval]
    · intro hmem hne
      simp [dump, h, clearInterval, List.mem_filter, hmem, hne]
  · intro r c b h hne
    simp only [lock, h]
    rw [if_neg]
    intro hcon
    exact hne hcon.1

/-- Witness for the amended claim C2 at concrete inputs: a registry whose
only channel calls carries beat id 1 and test id 2 with both active. -/
theorem c2_witness :
    flow ⟨0, none, [("boot", ["calls"])],
        [("calls", ⟨0, 0, 0, [], false, true⟩)]⟩ ⟨1, []⟩ "calls" = .ok
      ({ poll := 0, sessid := none, sets := [("boot", ["calls"])],
         data := setA [("calls", ⟨0, 0, 0, [], false, true⟩)] "calls"
           ⟨1, 0, 2, [], false, true⟩ }, ⟨3, [2, 1]⟩) ∧
    (2 : Nat) ∈ (dump ⟨0, none, [("boot", ["calls"])],
        [("calls", ⟨1, 0, 2, [], false, true⟩)]⟩ ⟨3, [2, 1]⟩ "calls").2.1.active ∧
    lock ⟨0, none, [("join", ["presence"])],
        [("presence", ⟨0, 0, 0, [], false, true⟩)]⟩ "presence" = .ok
      ({ poll := 0, sessid := none, sets := [("join", ["presence"])],
         data := setA [("presence", ⟨0, 0, 0, [], false, true⟩)] "presence"
           ⟨0, 0, 0, [], true, true⟩ }, .loaded) :=
  ⟨c2_amended.1 _ ⟨1, []⟩ "calls" ⟨0, 0, 0, [], false, true⟩ (by decide),
   (c2_amended.2.1 _ ⟨3, [2, 1]⟩ "calls" ⟨1, 0, 2, [], false, true⟩
      (by decide)).2 (by decide) (by decide),
   c2_amended.2.2 _ "presence" ⟨0, 0, 0, [], false, true⟩ (by decide) (by decide)⟩

/-- Claim C3.  When a watched channel already has a ready cache, a further
pulled record carrying the bootstrap action makes the client tear the
connection down and reconnect: a brand-new connection is constructed (the
generation counter advances, discarding the old instance) and the cache of
every watched channel is reset to the empty, not-ready state. -/
theorem c3_confirmed (s : ClientState) (c : String) (m : FRecord) (cache : Cache)
    (_hw : c ∈ s.watch) (hl : getA s.live c = some cache)
    (hr : cache.ready = true) (ha : m.action = "bootstrap_data") :
    clientPulled s c (some m) = .ok (openConn s) ∧
    (openConn s).gen = s.gen + 1 ∧
    ∀ c', c' ∈ (openConn s).watch →
      getA (openConn s).live c' = some ⟨[], false⟩ := by
  refine ⟨?_, by simp [openConn, wipe], ?_⟩
  · simp [clientPulled, clientDone, hl, hr, clientRead, ha, shut]
  · intro c' hc'
    simp only [openConn, wipe] at hc' ⊢
    exact getA_foldl_setA_mem _ _ _ _ hc'

/-- Witness for claim C3 at a concrete input: one watched ready channel
holding one record receives a bootstrap-action record. -/
theorem c3_witness :
    clientPulled ⟨0, ["calls"], ["calls"], [("calls", ⟨[[("x", Value.vInt 1)]], true⟩)]⟩
        "calls" (some ⟨[("row_id", Value.vInt 0)], [], "bootstrap_data"⟩) =
      .ok (openConn ⟨0, ["calls"], ["calls"], [("calls", ⟨[[("x", Value.vInt 1)]], true⟩)]⟩) ∧
    (openConn ⟨0, ["calls"], ["calls"], [("calls", ⟨[[("x", Value.vInt 1)]], true⟩)]⟩).gen = 1 ∧
    ∀ c', c' ∈ (openConn ⟨0, ["calls"], ["calls"],
        [("calls", ⟨[[("x", Value.vInt 1)]], true⟩)]⟩).watch →
      getA (openConn ⟨0, ["calls"], ["calls"],
        [("calls", ⟨[[("x", Value.vInt 1)]], true⟩)]⟩).live c' = some ⟨[], false⟩ :=
  c3_confirmed ⟨0, ["calls"], ["calls"], [("calls", ⟨[[("x", Value.vInt 1)]], true⟩)]⟩
    "calls" ⟨[("row_id", Value.vInt 0)], [], "bootstrap_data"⟩
    ⟨[[("x", Value.vInt 1)]], true⟩ (by decide) (by decide) (by decide) (by decide)

/-- Claim C4.  When the bond of a channel is absent or empty, formatting
returns the not-formattable result (the source returns false, here .ok
none) without raising — the bond check runs before any payload access —
and handing that result to the pulled watcher leaves the client state, in
particular the live record cache of the channel, unchanged: the offending
record is dropped. -/
theorem c4_confirmed (bond : Option (List String)) (inner : Option MsgInner)
    (s : ClientState) (c : String) (cache : Cache)
    (hb : bond = none ∨ bond = some []) (hl : getA s.live c = some cache) :
    format bond inner = .ok none ∧ clientPulled s c none = .ok s := by
  constructor
  · rcases hb with h | h <;> subst h <;> simp [format]
  · cases hready : cache.ready <;>
      simp [clientPulled, clientDone, hl, hready, clientRead]

/-- Witness for claim C4 at a concrete input: a channel with an empty bond
and a ready one-record cache. -/
theorem c4_witness :
    format (some []) (some ⟨some "add", [Value.vStr "up"]⟩) = .ok none ∧
    clientPulled ⟨0, ["calls"], ["calls"], [("calls", ⟨[[("x", Value.vInt 1)]], true⟩)]⟩
        "calls" none =
      .ok ⟨0, ["calls"], ["calls"], [("calls", ⟨[[("x", Value.vInt 1)]], true⟩)]⟩ :=
  c4_confirmed (some []) (some ⟨some "add", [Value.vStr "up"]⟩)
    ⟨0, ["calls"], ["calls"], [("calls", ⟨[[("x", Value.vInt 1)]], true⟩)]⟩
    "calls" ⟨[[("x", Value.vInt 1)]], true⟩ (Or.inr rfl) (by decide)

/-- Claim C5 counterexample.  Formatting a row against the one-column
schema status with no row_id field still adds a derived id field — with the
string value NaN, since parseInt of undefined is NaN — although the claim
asserts that the id derivation is skipped and no id field is added when
row_id is absent. -/
theorem c5_counterexample :
    (format (some ["status"]) (some ⟨some "add", [Value.vStr "up"]⟩)).map
      (fun o => o.map (fun r => getA r.data "id")) =
      .ok (some (some (Value.vStr "NaN"))) := by
  rfl

/-- Claim C5, amended.  The derived id equals the decimal string of row_id
plus one whenever the formatted data carries row_id as an integer value;
when row_id is absent, an id field is still added, holding the string NaN
(the stringified result of parseInt of undefined plus one). -/
theorem c5_amended (cols : List String) (inn : MsgInner) (hc : cols ≠ []) :
    (∀ n : Int, getA (formatData cols inn) "row_id" = some (.vInt n) →
        (format (some cols) (some inn)).map
          (fun o => o.map (fun r => getA r.data "id")) =
          .ok (some (some (Value.vStr (toString (n + 1)))))) ∧
    (getA (formatData cols inn) "row_id" = none →
        (format (some cols) (some inn)).map
          (fun o => o.map (fun r => getA r.data "id")) =
          .ok (some (some (Value.vStr "NaN")))) := by
  have hlen : ¬cols.length = 0 := by simpa using hc
  have hrec : formatData cols inn =
      (formatLoop cols (initRecord inn.action) 0 inn.rows).data := rfl
  constructor
  · intro n h
    rw [hrec] at h
    simp [format, hlen, getA_setA_self, h, idValue, jsParseInt, Except.map]
  · intro h
    rw [hrec] at h
    simp [format, hlen, getA_setA_self, h, idValue, jsParseInt, Except.map]

/-- Witness for the amended claim C5 at concrete inputs: a schema with a
row_id column and a row carrying 4, and a schema without one. -/
theorem c5_witness :
    (format (some ["row_id"]) (some ⟨some "add", [Value.vInt 4]⟩)).map
        (fun o => o.map (fun r => getA r.data "id")) =
      .ok (some (some (Value.vStr (toString ((4 : Int) + 1))))) ∧
    (format (some ["status"]) (some ⟨some "modify", [Value.vStr "up"]⟩)).map
        (fun o => o.map (fun r => getA r.data "id")) =
      .ok (some (some (Value.vStr "NaN"))) :=
  ⟨(c5_amended ["row_id"] ⟨some "add", [Value.vInt 4]⟩ (by decide)).1 4 (by rfl),
   (c5_amended ["status"] ⟨some "modify", [Value.vStr "up"]⟩ (by decide)).2 (by rfl)⟩

theorem formatStep_not_leg (cols : List String) (rec : FRecord) (i : Nat)
    (v : Value)
    (h : ¬((labelAt cols i).take 2 = "a_" ∨ (labelAt cols i).take 2 = "b_")) :
    formatStep cols rec i v =
      { rec with call := setA rec.call (labelAt cols i) (.val v)
                 data := setA rec.data (labelAt cols i) v } := by
  simp [formatStep, h]

theorem formatStep_leg (cols : List String) (rec : FRecord) (i : Nat)
    (v : Value)
    (h : (labelAt cols i).take 2 = "a_" ∨ (labelAt cols i).take 2 = "b_") :
    formatStep cols rec i v =
      { rec with
          call := setLeg rec.call ((labelAt cols i).take 1 ++ "leg")
            ((labelAt cols i).drop 2) v
          data := setA rec.data (labelAt cols i) v } := by
  simp [formatStep, h]

theorem take_one_of_take_two (l : String) (c₁ c₂ : Char)
    (h : l.take 2 = ⟨[c₁, c₂]⟩) : l.take 1 = ⟨[c₁]⟩ := by
  have hd : l.data.take 2 = [c₁, c₂] := by
    have h₁ := congrArg String.data h
    rwa [String.data_take] at h₁
  have h₁ : l.data.take 1 = [c₁] := by
    have h₂ : (l.data.take 2).take 1 = ([c₁, c₂] : List Char).take 1 := by
      rw [hd]
    simpa [List.take_take] using h₂
  rw [String.take_eq, h₁]

/-- Claim C6.  For one positional value of a row formatted against a
schema: a missing label at its position yields the sentinel label FAILED
and the value is still recorded under it in the flat data record; a label
starting a underscore routes the value into the aleg sub-object under the
remainder of the label (and likewise b underscore into bleg); every other
label routes the value under the full label in the flat call object; and in
every one of these cases the value is also recorded under its literal label
in the flat data record. -/
theorem c6_confirmed (cols : List String) (rec : FRecord) (i : Nat) (v : Value) :
    (cols[i]? = none →
      labelAt cols i = "FAILED" ∧
      getA (formatStep cols rec i v).data "FAILED" = some v) ∧
    (∀ m : List (String × Value), (labelAt cols i).take 2 = "a_" →
      getA rec.call "aleg" = some (.leg m) →
      (labelAt cols i).take 1 ++ "leg" = "aleg" ∧
      legGet (formatStep cols rec i v).call "aleg" ((labelAt cols i).drop 2) =
        some v ∧
      getA (formatStep cols rec i v).data (labelAt cols i) = some v) ∧
    (∀ m : List (String × Value), (labelAt cols i).take 2 = "b_" →
      getA rec.call "bleg" = some (.leg m) →
      (labelAt cols i).take 1 ++ "leg" = "bleg" ∧
      legGet (formatStep cols rec i v).call "bleg" ((labelAt cols i).drop 2) =
        some v ∧
      getA (formatStep cols rec i v).data (labelAt cols i) = some v) ∧
    ((labelAt cols i).take 2 ≠ "a_" → (labelAt cols i).take 2 ≠ "b_" →
      getA (formatStep cols rec i v).call (labelAt cols i) = some (.val v) ∧
      getA (formatStep cols rec i v).data (labelAt cols i) = some v) := by
  refine ⟨?_, ?_, ?_, ?_⟩
  · intro h
    have hl : labelAt cols i = "FAILED" := by simp [labelAt, h]
    have hcond : ¬((labelAt cols i).take 2 = "a_" ∨
        (labelAt cols i).take 2 = "b_") := by
      rw [hl]; decide
    refine ⟨hl, ?_⟩
    rw [formatStep_not_leg cols rec i v hcond]
    simp only []
    rw [← hl]
    exact getA_setA_self _ _ _
  · intro m ha hm
    have h1 : (labelAt cols i).take 1 = "a" :=
      take_one_of_take_two (labelAt cols i) 'a' '_' ha
    have hlab : (labelAt cols i).take 1 ++ "leg" = "aleg" := by rw [h1]; rfl
    rw [formatStep_leg cols rec i v (Or.inl ha), hlab]
    refine ⟨rfl, ?_, getA_setA_self _ _ _⟩
    simp only [setLeg, hm, legGet, getA_setA_self]
  · intro m hb hm
    have h1 : (labelAt cols i).take 1 = "b" :=
      take_one_of_take_two (labelAt cols i) 'b' '_' hb
    have hlab : (labelAt cols i).take 1 ++ "leg" = "bleg" := by rw [h1]; rfl
    rw [formatStep_leg cols rec i v (Or.inr hb), hlab]
    refine ⟨rfl, ?_, getA_setA_self _ _ _⟩
    simp only [setLeg, hm, legGet, getA_setA_self]
  · intro ha hb
    have hcond : ¬((labelAt cols i).take 2 = "a_" ∨
        (labelAt cols i).take 2 = "b_") := by
      rintro (h | h)
      · exact ha h
      · exact hb h
    rw [formatStep_not_leg cols rec i v hcond]
    exact ⟨getA_setA_self _ _ _, getA_setA_self _ _ _⟩

/-- Witness for claim C6 at concrete inputs: an empty schema (missing
label), a one-column a-leg schema, a one-column b-leg schema, and a plain
status column, each applied to the initial record of the formatter. -/
theorem c6_witness :
    (labelAt [] 0 = "FAILED" ∧
      getA (formatStep [] (initRecord none) 0 (Value.vInt 7)).data "FAILED" =
        some (Value.vInt 7)) ∧
    ((labelAt ["a_id"] 0).take 1 ++ "leg" = "aleg" ∧
      legGet (formatStep ["a_id"] (initRecord none) 0 (Value.vInt 7)).call
        "aleg" ((labelAt ["a_id"] 0).drop 2) = some (Value.vInt 7) ∧
      getA (formatStep ["a_id"] (initRecord none) 0 (Value.vInt 7)).data
        (labelAt ["a_id"] 0) = some (Value.vInt 7)) ∧
    ((labelAt ["b_id"] 0).take 1 ++ "leg" = "bleg" ∧
      legGet (formatStep ["b_id"] (initRecord none) 0 (Value.vInt 7)).call
        "bleg" ((labelAt ["b_id"] 0).drop 2) = some (Value.vInt 7) ∧
      getA (formatStep ["b_id"] (initRecord none) 0 (Value.vInt 7)).data
        (labelAt ["b_id"] 0) = some (Value.vInt 7)) ∧
    (getA (formatStep ["status"] (initRecord none) 0 (Value.vInt 7)).call
        (labelAt ["status"] 0) = some (.val (Value.vInt 7)) ∧
      getA (formatStep ["status"] (initRecord none) 0 (Value.vInt 7)).data
        (labelAt ["status"] 0) = some (Value.vInt 7)) :=
  ⟨(c6_confirmed [] (initRecord none) 0 (Value.vInt 7)).1 rfl,
   (c6_confirmed ["a_id"] (initRecord none) 0 (Value.vInt 7)).2.1 []
     (by rfl) (by rfl),
   (c6_confirmed ["b_id"] (initRecord none) 0 (Value.vInt 7)).2.2.1 []
     (by rfl) (by rfl),
   (c6_confirmed ["status"] (initRecord none) 0 (Value.vInt 7)).2.2.2
     (by decide) (by decide)⟩

/-- Claim C7 counterexample.  A message resolving the channel ghost with a
raw label that is no reserved command name, arriving while the registry
holds no binding for ghost, makes the done lookup read a property of
undefined and throw — the message reaches neither the command dispatcher
nor the cache, although the claim requires it to be routed to the command
dispatcher. -/
theorem c7_counterexample :
    route (freshRegistry [("boot", ["calls"])]) []
      ⟨"xyz", ⟨some "ghost", none, none⟩⟩ = .error () := by
  rfl

/-- Claim C7, amended.  A message with no truthy resolvable channel, or
whose lower-cased raw label is a reserved command name, or whose resolved
channel has a registry binding not yet marked done, is routed to the
command dispatcher; a message whose resolved channel has a binding marked
done is formatted and emitted to the cache; but a message whose resolved
channel has no registry binding and whose raw label is not reserved makes
the done lookup throw, so it is routed nowhere. -/
theorem c7_amended :
    (∀ (r : Registry) (bonds : List (String × List String)) (m : InMsg),
        jsStrTruthy (findChannel m) = none →
        route r bonds m = .ok (.toCommand (findChannel m) m)) ∧
    (∀ (r : Registry) (bonds : List (String × List String)) (m : InMsg)
        (ch : String),
        jsStrTruthy (findChannel m) = some ch →
        commandNames.contains (jsToLower m.raw) = true →
        route r bonds m = .ok (.toCommand (findChannel m) m)) ∧
    (∀ (r : Registry) (bonds : List (String × List String)) (m : InMsg)
        (ch : String) (b : Binding),
        jsStrTruthy (findChannel m) = some ch →
        commandNames.contains (jsToLower m.raw) = false →
        getA r.data ch = some b → b.done = false →
        route r bonds m = .ok (.toCommand (findChannel m) m)) ∧
    (∀ (r : Registry) (bonds : List (String × List String)) (m : InMsg)
        (ch : String) (b : Binding),
        jsStrTruthy (findChannel m) = some ch →
        commandNames.contains (jsToLower m.raw) = false →
        getA r.data ch = some b → b.done = true →
        route r bonds m = (format (getA bonds ch) m.data.inner).map
          (fun rec => RouteResult.toCache ch rec)) ∧
    (∀ (r : Registry) (bonds : List (String × List String)) (m : InMsg)
        (ch : String),
        jsStrTruthy (findChannel m) = some ch →
        commandNames.contains (jsToLower m.raw) = false →
        getA r.data ch = none →
        route r bonds m = .error ()) := by
  refine ⟨?_, ?_, ?_, ?_, ?_⟩
  · intro r bonds m h
    simp [route, h]
  · intro r bonds m ch h hres
    have hmem : jsToLower m.raw ∈ commandNames := by simpa using hres
    simp [route, h, hmem]
  · intro r bonds m ch b h hres hb hd
    simp [route, h, hres, hb, hd]
  · intro r bonds m ch b h hres hb hd
    have hmem : jsToLower m.raw ∉ commandNames := by simpa using hres
    cases hf : format (getA bonds ch) m.data.inner <;>
      simp [route, h, hmem, hb, hd, hf, Except.map]
  · intro r bonds m ch h hres hn
    have hmem : jsToLower m.raw ∉ commandNames := by simpa using hres
    simp [route, h, hmem, hn]

/-- Witness for the amended claim C7 at concrete inputs, one per branch:
a channel-less message, a reserved login label, an un-done binding, a done
binding with a bonded schema, and a resolved channel with no binding. -/
theorem c7_witness :
    route (freshRegistry []) [] ⟨"xyz", ⟨none, none, none⟩⟩ =
      .ok (.toCommand (findChannel ⟨"xyz", ⟨none, none, none⟩⟩)
        ⟨"xyz", ⟨none, none, none⟩⟩) ∧
    route (freshRegistry []) [] ⟨"Login", ⟨some "calls", none, none⟩⟩ =
      .ok (.toCommand (findChannel ⟨"Login", ⟨some "calls", none, none⟩⟩)
        ⟨"Login", ⟨some "calls", none, none⟩⟩) ∧
    route ⟨0, none, [("boot", ["calls"])], [("calls", ⟨0, 0, 0, [], false, true⟩)]⟩
        [] ⟨"xyz", ⟨some "calls", none, none⟩⟩ =
      .ok (.toCommand (findChannel ⟨"xyz", ⟨some "calls", none, none⟩⟩)
        ⟨"xyz", ⟨some "calls", none, none⟩⟩) ∧
    route ⟨0, none, [("boot", ["calls"])], [("calls", ⟨0, 0, 0, [], true, true⟩)]⟩
        [("calls", ["status"])]
        ⟨"xyz", ⟨some "calls", none, some ⟨some "add", [Value.vStr "up"]⟩⟩⟩ =
      (format (getA [("calls", ["status"])] "calls")
          (InMsg.mk "xyz" ⟨some "calls", none,
            some ⟨some "add", [Value.vStr "up"]⟩⟩).data.inner).map
        (fun rec => RouteResult.toCache "calls" rec) ∧
    route (freshRegistry []) [] ⟨"xyz", ⟨some "ghost2", none, none⟩⟩ =
      .error () :=
  ⟨c7_amended.1 (freshRegistry []) [] ⟨"xyz", ⟨none, none, none⟩⟩ rfl,
   c7_amended.2.1 (freshRegistry []) [] ⟨"Login", ⟨some "calls", none, none⟩⟩
     "calls" rfl (by rfl),
   c7_amended.2.2.1 ⟨0, none, [("boot", ["calls"])],
       [("calls", ⟨0, 0, 0, [], false, true⟩)]⟩ []
     ⟨"xyz", ⟨some "calls", none, none⟩⟩ "calls" ⟨0, 0, 0, [], false, true⟩
     rfl (by rfl) (by rfl) rfl,
   c7_amended.2.2.2.1 ⟨0, none, [("boot", ["calls"])],
       [("calls", ⟨0, 0, 0, [], true, true⟩)]⟩ [("calls", ["status"])]
     ⟨"xyz", ⟨some "calls", none, some ⟨some "add", [Value.vStr "up"]⟩⟩⟩
     "calls" ⟨0, 0, 0, [], true, true⟩ rfl (by rfl) (by rfl) rfl,
   c7_amended.2.2.2.2 (freshRegistry []) [] ⟨"xyz", ⟨some "ghost2", none, none⟩⟩
     "ghost2" rfl (by rfl) (by rfl)⟩

theorem tick_poll {r : Registry} {c : String} {pr : Nat × Registry}
    (h : tick r c = .ok pr) : pr.2.poll = r.poll := by
  unfold tick at h
  cases hg : getA r.data c with
  | none => rw [hg] at h; simp at h
  | some b =>
    rw [hg] at h
    simp only [Except.ok.injEq] at h
    rw [← h]

theorem advanced_poll {r : Registry} {cmd ctx : String}
    {pr : Params × Registry} (h : advanced r cmd ctx = .ok pr) :
    pr.2.poll = r.poll := by
  unfold advanced at h
  by_cases hc : cmd = "heartbeat"
  · rw [if_pos hc] at h
    cases ht : tick r ctx with
    | error e => rw [ht] at h; simp at h
    | ok pt =>
      rw [ht] at h
      simp only [Except.ok.injEq] at h
      rw [← h]
      exact tick_poll ht
  · rw [if_neg hc] at h
    simp only [Except.ok.injEq] at h
    rw [← h]

theorem writers_poll {r : Registry} {f : WFormat} {ctx : WContext}
    {pr : Params × Registry} (h : writers r f ctx = .ok pr) :
    pr.2.poll = r.poll := by
  cases f with
  | stat => simp only [writers, Except.ok.injEq] at h; rw [← h]
  | join => simp only [writers, Except.ok.injEq] at h; rw [← h]
  | auth => simp only [writers, Except.ok.injEq] at h; rw [← h]
  | boot =>
    cases ctx with
    | chan c => exact advanced_poll h
    | chans cs => simp [writers] at h
    | sess s => simp [writers] at h
    | nil => simp [writers] at h
  | beat =>
    cases ctx with
    | chan c => exact advanced_poll h
    | chans cs => simp [writers] at h
    | sess s => simp [writers] at h
    | nil => simp [writers] at h

/-- Claim C8.  The sequence counter of a freshly constructed connection is
zero — so the first message after a reconnection carries sequence number
0 — and every successful send carries the current counter value in its chl
field while advancing the counter by exactly one, so consecutive sends on
one connection carry strictly increasing consecutive numbers. -/
theorem c8_confirmed :
    (∀ sets : List (String × List String), (freshRegistry sets).poll = 0) ∧
    (∀ (r : Registry) (f : WFormat) (ctx : WContext) (msg : Msg)
        (r₁ : Registry),
        write r f ctx = .ok (msg, r₁) →
        msg.chl = r.poll ∧ r₁.poll = r.poll + 1) := by
  refine ⟨fun _ => rfl, ?_⟩
  intro r f ctx msg r₁ h
  simp only [write] at h
  cases hw : writers { r with poll := r.poll + 1 } f ctx with
  | error e => rw [hw] at h; simp at h
  | ok pr =>
    obtain ⟨p, r₂⟩ := pr
    rw [hw] at h
    simp only [Except.ok.injEq, Prod.mk.injEq] at h
    obtain ⟨hm, hr⟩ := h
    constructor
    · rw [← hm]
    · rw [← hr]
      exact writers_poll hw

/-- Witness for claim C8 at a concrete input: the first health-check sent
on a fresh connection carries sequence number 0 and advances the counter
to 1. -/
theorem c8_witness :
    (freshRegistry []).poll = 0 ∧
    ((⟨"CHECK", 0, none, Params.empty⟩ : Msg).chl = (freshRegistry []).poll ∧
      ({ freshRegistry [] with poll := 1 } : Registry).poll =
        (freshRegistry []).poll + 1) :=
  ⟨c8_confirmed.1 [],
   c8_confirmed.2 (freshRegistry []) .stat .nil ⟨"CHECK", 0, none, .empty⟩
     { freshRegistry [] with poll := 1 } (by rfl)⟩

/-- Claim C9 counterexample.  The outgoing health-check message (the stat
format, wire command CHECK, sent by channel.test) built on a fresh registry
for the channel calls carries empty params and hence no per-channel
sequence number at all, although the claim asserts every health-check
message carries a monotonically increasing per-channel sequence number. -/
theorem c9_counterexample :
    (write (freshRegistry [("boot", ["calls"])]) .stat (.chan "calls")).map
      (fun p => (p.1.params, Params.hbId p.1.params)) =
      .ok (.empty, none) := by
  rfl

/-- Claim C9, amended.  Health-check (stat) messages carry empty params and
no sequence number; it is the heartbeat (beat) messages that carry the
per-channel hb id: a heartbeat write stamps the current tick counter of the
channel into the params and advances the stored counter by one, so the ids
carried by successive heartbeat sends of one channel strictly increase. -/
theorem c9_amended (r : Registry) (c : String) (b : Binding)
    (h : getA r.data c = some b) :
    write r .stat (.chan c) =
      .ok ({ cmd := "CHECK", chl := r.poll, sessid := r.sessid,
             params := .empty }, { r with poll := r.poll + 1 }) ∧
    write r .beat (.chan c) =
      .ok ({ cmd := "BROADCAST", chl := r.poll, sessid := r.sessid,
             params := .liveArray "heartbeat" c
               { baseAdvObj with hb_id := some b.tick } },
           { r with poll := r.poll + 1,
                    data := setA r.data c { b with tick := b.tick + 1 } }) := by
  constructor
  · rfl
  · simp [write, writers, advanced, tick, h, fmtCmd]

/-- Witness for the amended claim C9 at a concrete input: a registry whose
channel calls has tick counter 7. -/
theorem c9_witness :
    write ⟨3, some "sess", [("boot", ["calls"])],
        [("calls", ⟨0, 7, 0, [], true, true⟩)]⟩ .stat (.chan "calls") =
      .ok ({ cmd := "CHECK", chl := 3, sessid := some "sess",
             params := .empty },
           { (⟨3, some "sess", [("boot", ["calls"])],
               [("calls", ⟨0, 7, 0, [], true, true⟩)]⟩ : Registry) with
             poll := 4 }) ∧
    write ⟨3, some "sess", [("boot", ["calls"])],
        [("calls", ⟨0, 7, 0, [], true, true⟩)]⟩ .beat (.chan "calls") =
      .ok ({ cmd := "BROADCAST", chl := 3, sessid := some "sess",
             params := .liveArray "heartbeat" "calls"
               { baseAdvObj with hb_id := some 7 } },
           { (⟨3, some "sess", [("boot", ["calls"])],
               [("calls", ⟨0, 7, 0, [], true, true⟩)]⟩ : Registry) with
             poll := 4,
             data := setA [("calls", ⟨0, 7, 0, [], true, true⟩)] "calls"
               ⟨0, 8, 0, [], true, true⟩ }) :=
  c9_amended ⟨3, some "sess", [("boot", ["calls"])],
    [("calls", ⟨0, 7, 0, [], true, true⟩)]⟩ "calls"
    ⟨0, 7, 0, [], true, true⟩ (by rfl)

/-- Claim C10 counterexample.  In the reachable registry state right after
the connection bootstrap — channel sets configured, no binding made yet —
the no-argument done call reads the done property of an undefined binding
inside its iteration and throws, instead of returning true as the claim
asserts for every reachable state. -/
theorem c10_counterexample :
    doneAll (freshRegistry [("boot", ["calls"])]) = .error () := by
  rfl

/-- Claim C10, amended.  Whenever every channel of every configured set has
a binding — with the individual done flags completely arbitrary — the
no-argument done call returns true, because the early return inside the
iteration callback never propagates to the caller; at the same time the
per-channel done call can report false for a channel whose flag is unset.
When some set channel has no binding, the iteration throws instead of
returning. -/
theorem c10_amended :
    (∀ r : Registry,
        (∀ c ∈ setsChannels r, (getA r.data c).isSome = true) →
        doneAll r = .ok true) ∧
    (∀ (r : Registry) (c : String) (b : Binding),
        getA r.data c = some b → b.done = false →
        doneChan r c = .ok false) := by
  constructor
  · intro r h
    unfold doneAll
    rw [if_pos]
    rw [List.all_eq_true]
    exact h
  · intro r c b hb hd
    simp [doneChan, hb, hd]

/-- Witness for the amended claim C10 at a concrete input: a registry whose
single set channel has a binding with done still false. -/
theorem c10_witness :
    doneAll ⟨0, none, [("boot", ["calls"])],
      [("calls", ⟨0, 0, 0, [], false, false⟩)]⟩ = .ok true ∧
    doneChan ⟨0, none, [("boot", ["calls"])],
      [("calls", ⟨0, 0, 0, [], false, false⟩)]⟩ "calls" = .ok false :=
  ⟨c10_amended.1 ⟨0, none, [("boot", ["calls"])],
      [("calls", ⟨0, 0, 0, [], false, false⟩)]⟩ (by decide),
   c10_amended.2 ⟨0, none, [("boot", ["calls"])],
      [("calls", ⟨0, 0, 0, [], false, false⟩)]⟩ "calls"
     ⟨0, 0, 0, [], false, false⟩ (by rfl) rfl⟩

end CudatelWS
